import Mathlib

/-!
Verification development for the flash-sale reservation/commit engine.

The definitions below are a shallow embedding of the Go sources:

* `internal/cache/redis.go` — the FastStore client: the reservation Lua
  script (`luaReserve`), `ReserveItem`, `VerifyAndPurchase`,
  `IncrementUserPurchase` (via `hincr`), `GetInventoryStatus`,
  `MarkItemAsSold`.
* `internal/server/routes.go` — the HTTP handlers `checkoutHandler`
  (`checkoutReq`), `purchaseHandler` (`purchaseReq`, `purchaseFlow`) and
  `saleStatusHandler`.
* `internal/sale/manager.go` — `startNewSale`.

Redis state for a single sale is modelled by `Store`: the integer
inventory key, the `checkout_code:*` key table (an association list, one
entry per live key), the `user_purchases` hash and the sold bitmap.
Redis executes the Lua script, `SET`, `GETDEL` and `HINCRBY` atomically
and serialises them; a schedule of concurrent requests is therefore
modelled as a list of `Event`s folded over the store, each event being
the net effect of one HTTP request (injected failures of the code write
and of the user-counter increment are explicit booleans).  Machine
integers are modelled as `Int`/`Nat`; the counters involved stay far
below 2^63 so overflow is not modelled.
-/

namespace FlashSale

/-- Per-user purchase limit: `routes.go` / `redis.go` pass the literal 10
(`ARGV[2]` of the Lua script). -/
def maxPerUser : Nat := 10

/-- Items per sale: the literal 10000 of `manager.go` and `routes.go`. -/
def totalItems : Int := 10000

/-- Code TTL in seconds: `codeExpiryTime = 5 * time.Minute`. -/
def codeExpirySec : Nat := 300

/-- The `CheckoutInfo` record stored under a `checkout_code:<hex>` key
(`redis.go`).  `expiresAt` is a Unix timestamp in seconds. -/
structure CheckoutInfo where
  userId : String
  itemId : String
  saleId : String
  expiresAt : Nat
  deriving DecidableEq, Repr

/-- The live `checkout_code:*` keys: one entry per key. -/
abbrev CodeTable := List (String × CheckoutInfo)

/-- Redis `GET`/`GETDEL` lookup of a code key. -/
def codeLookup : CodeTable → String → Option CheckoutInfo
  | [], _ => none
  | (k, v) :: t, c => if k = c then some v else codeLookup t c

/-- Redis `DEL`/`GETDEL`/TTL removal of a code key. -/
def codeDel : CodeTable → String → CodeTable
  | [], _ => []
  | (k, v) :: t, c => if k = c then codeDel t c else (k, v) :: codeDel t c

/-- Redis `SET` of a code key (overwrites an existing key). -/
def codeSet (l : CodeTable) (c : String) (i : CheckoutInfo) : CodeTable :=
  (c, i) :: codeDel l c

/-- The `sale:<id>:user_purchases` hash. -/
abbrev UserHash := List (String × Nat)

/-- Redis `HGET` on the user-purchases hash. -/
def hget : UserHash → String → Option Nat
  | [], _ => none
  | (k, v) :: t, u => if k = u then some v else hget t u

/-- Redis `HINCRBY key field 1` (a missing field is created at 1). -/
def hincr : UserHash → String → UserHash
  | [], u => [(u, 1)]
  | (k, v) :: t, u => if k = u then (k, v + 1) :: t else (k, v) :: hincr t u

/-- FastStore state for one sale, as set up by `InitializeSale`:
the inventory counter, the code table, the user-purchases hash and the
sold bitmap (set of set bit offsets). -/
structure Store where
  inv : Int
  codes : CodeTable
  userPurchases : UserHash
  soldBitmap : List Int
  deriving DecidableEq, Repr

/-- The store produced by `InitializeSale(saleID, n)`: inventory set to
`n`, the `user_purchases` and `sold_bitmap` keys deleted. -/
def initSaleStore (n : Int) : Store :=
  { inv := n, codes := [], userPurchases := [], soldBitmap := [] }

/-- Result values of the reservation Lua script. -/
inductive ReserveStatus
  | userLimitExceeded
  | soldOut
  | success
  deriving DecidableEq, Repr

/-- The Lua user-limit test: `user_count and tonumber(user_count) >= max_per_user`
(`HGET` of a missing field is `false` in Lua, so the test is skipped). -/
def userLimitHit (h : UserHash) (u : String) (m : Nat) : Bool :=
  match hget h u with
  | some c => m ≤ c
  | none => false

/-- The reservation Lua script of `ReserveItem` (`redis.go` lines 133-153):
check the user counter, `DECR` the inventory, and `INCR` it back when the
post-decrement value is negative.  Redis runs the script atomically, so it
is one step of the model. -/
def luaReserve (st : Store) (userId : String) (m : Nat) : ReserveStatus × Store :=
  if userLimitHit st.userPurchases userId m then
    (.userLimitExceeded, st)
  else
    let remaining := st.inv - 1
    if remaining < 0 then
      (.soldOut, { st with inv := remaining + 1 })
    else
      (.success, { st with inv := remaining })

/-- Outcomes of the Go `ReserveItem` wrapper. -/
inductive ReserveResult
  | ok (code : String)
  | errSoldOut
  | errUserLimit
  | errCodeWrite
  deriving DecidableEq, Repr

/-- `ReserveItem` (`redis.go` lines 131-192): run the Lua script, map its
status to errors, otherwise write the `checkout_code` record with the
5-minute TTL; if that `SET` fails, `INCR` the inventory back and return
the error.  `code` stands for the value of `generateCode()`, `now` for
`time.Now()`, and `writeOk` injects the outcome of the `SET`. -/
def ReserveItem (st : Store) (saleId userId itemId code : String)
    (now : Nat) (writeOk : Bool) : ReserveResult × Store :=
  match luaReserve st userId maxPerUser with
  | (.userLimitExceeded, st') => (.errUserLimit, st')
  | (.soldOut, st') => (.errSoldOut, st')
  | (.success, st') =>
    if writeOk then
      (.ok code,
        { st' with codes :=
            codeSet st'.codes code (CheckoutInfo.mk userId itemId saleId (now + codeExpirySec)) })
    else
      (.errCodeWrite, { st' with inv := st'.inv + 1 })

/-- Errors of `VerifyAndPurchase`. -/
inductive PurchaseError
  | invalidOrExpiredCode
  | codeExpired
  deriving DecidableEq, Repr

/-- The error strings returned by `VerifyAndPurchase`. -/
def purchaseErrMsg : PurchaseError → String
  | .invalidOrExpiredCode => "invalid or expired code"
  | .codeExpired => "code expired"

/-- `VerifyAndPurchase` (`redis.go` lines 194-215): atomic `GETDEL` of the
code key; a missing key is `invalid or expired code`; a present record
whose `expires_at` is in the past is deleted all the same and reported as
`code expired`. -/
def VerifyAndPurchase (st : Store) (code : String) (now : Nat) :
    Except PurchaseError CheckoutInfo × Store :=
  match codeLookup st.codes code with
  | none => (.error .invalidOrExpiredCode, st)
  | some info =>
    let st' := { st with codes := codeDel st.codes code }
    if info.expiresAt < now then
      (.error .codeExpired, st')
    else
      (.ok info, st')

/-- `IncrementUserPurchase` (`redis.go` lines 235-238): `HINCRBY` of the
user field by 1. -/
def IncrementUserPurchase (st : Store) (userId : String) : Store :=
  { st with userPurchases := hincr st.userPurchases userId }

/-- HTTP outcome of `checkoutHandler` (`routes.go` lines 108-169). -/
inductive CheckoutResp
  | ok200 (code : String)
  | badRequest400
  | conflict409
  | forbidden403
  | internal500
  deriving DecidableEq, Repr

/-- `checkoutHandler`: require `user_id` and `id`, call `ReserveItem` on
the current sale, and map its errors to 409 / 403 / 500.  The
fire-and-forget `LogCheckoutAttempt` write touches only the durable tier
and no FastStore state. -/
def checkoutReq (st : Store) (saleId userId itemId code : String)
    (now : Nat) (writeOk : Bool) : CheckoutResp × Store :=
  if userId = "" ∨ itemId = "" then
    (.badRequest400, st)
  else
    match ReserveItem st saleId userId itemId code now writeOk with
    | (.ok c, st') => (.ok200 c, st')
    | (.errSoldOut, st') => (.conflict409, st')
    | (.errUserLimit, st') => (.forbidden403, st')
    | (.errCodeWrite, st') => (.internal500, st')

/-- HTTP outcome of `purchaseHandler` (`routes.go` lines 171-229). -/
inductive PurchaseResp
  | ok200 (userId itemId saleId : String)
  | err400 (msg : String)
  | internal500
  deriving DecidableEq, Repr

/-- Whether a purchase response is the success body. -/
def PurchaseResp.isSuccess : PurchaseResp → Bool
  | .ok200 _ _ _ => true
  | _ => false

/-- `purchaseHandler`, synchronous part: require `code`, call
`VerifyAndPurchase` (errors become 400 with the error text), then
`IncrementUserPurchase` (`incrOk` injects its outcome; a failure is 500
with the code already consumed). -/
def purchaseReq (st : Store) (code : String) (now : Nat) (incrOk : Bool) :
    PurchaseResp × Store :=
  if code = "" then
    (.err400 "code is required", st)
  else
    match VerifyAndPurchase st code now with
    | (.error e, st') => (.err400 (purchaseErrMsg e), st')
    | (.ok info, st') =>
      if incrOk then
        (.ok200 info.userId info.itemId info.saleId,
          IncrementUserPurchase st' info.userId)
      else
        (.internal500, st')

/-! ### Sequence-number parsing and the sold bitmap (`routes.go` 201-218,
`redis.go` 280-288) -/

/-- Go `strings.Split` on a non-empty separator, on character lists:
scan left to right, cut at each non-overlapping occurrence.  The fuel is
initialised to more than the input length, so it never runs out. -/
def splitChars (sep : List Char) : Nat → List Char → List Char → List (List Char)
  | 0, acc, s => [(acc.reverse ++ s)]
  | _ + 1, acc, [] => [acc.reverse]
  | fuel + 1, acc, c :: rest =>
    if sep.isPrefixOf (c :: rest) then
      acc.reverse :: splitChars sep fuel [] ((c :: rest).drop sep.length)
    else
      splitChars sep fuel (c :: acc) rest

/-- `strings.Split(s, "_item_")` as used by the purchase goroutine. -/
def goSplitItem (s : String) : List String :=
  (splitChars "_item_".data (s.data.length + 1) [] s.data).map String.mk

/-- Digit run of `strconv.Atoi`: all characters must be decimal digits
and there must be at least one. -/
def digitsAux : List Char → Nat → Option Nat
  | [], acc => some acc
  | c :: t, acc =>
    if c.isDigit then digitsAux t (acc * 10 + (c.toNat - 48)) else none

/-- `strconv.Atoi`: optional sign, then a non-empty digit run (64-bit
overflow is out of range for item sequence numbers and not modelled). -/
def goAtoi (s : String) : Option Int :=
  match s.data with
  | [] => none
  | '-' :: rest =>
    if rest = [] then none else (digitsAux rest 0).map (fun n => -(n : Int))
  | '+' :: rest =>
    if rest = [] then none else (digitsAux rest 0).map (fun n => (n : Int))
  | l => (digitsAux l 0).map (fun n => (n : Int))

/-- The purchase goroutine's sequence-number extraction (`routes.go`
lines 202-207): split on `"_item_"`, proceed only when the split has
exactly two parts, and `Atoi` the second. -/
def soldSeqOfItemId (itemId : String) : Option Int :=
  match goSplitItem itemId with
  | [_, second] => goAtoi second
  | _ => none

/-- The sequence number as the specification words it: the integer after
the last `"_item_"` delimiter (defined only when the delimiter occurs).
This definition follows the spec's words, for comparison with
`soldSeqOfItemId` which follows the code. -/
def soldSeqSpec (itemId : String) : Option Int :=
  let parts := goSplitItem itemId
  if 2 ≤ parts.length then parts.getLast?.bind goAtoi else none

/-- `MarkItemAsSold` (`redis.go` lines 280-288): reject non-positive item
numbers, otherwise `SETBIT` offset `itemNumber - 1`. -/
def MarkItemAsSold (st : Store) (itemNumber : Int) : Except String Store :=
  if itemNumber ≤ 0 then
    .error "itemNumber must be positive"
  else
    .ok { st with soldBitmap :=
      if (itemNumber - 1) ∈ st.soldBitmap then st.soldBitmap
      else (itemNumber - 1) :: st.soldBitmap }

/-- The FastStore side of the purchase goroutine (`routes.go` lines
201-207): parse the sequence number and set the bit; any parse failure
or `MarkItemAsSold` error is swallowed. -/
def purchaseAsync (st : Store) (info : CheckoutInfo) : Store :=
  match soldSeqOfItemId info.itemId with
  | some n =>
    match MarkItemAsSold st n with
    | .ok st' => st'
    | .error _ => st
  | none => st

/-- `purchaseHandler` with its goroutine's FastStore effect applied: the
response is built exactly as in `purchaseReq`; the bitmap write happens
only on the success path and never alters the response. -/
def purchaseFlow (st : Store) (code : String) (now : Nat) (incrOk : Bool) :
    PurchaseResp × Store :=
  if code = "" then
    (.err400 "code is required", st)
  else
    match VerifyAndPurchase st code now with
    | (.error e, st') => (.err400 (purchaseErrMsg e), st')
    | (.ok info, st') =>
      if incrOk then
        (.ok200 info.userId info.itemId info.saleId,
          purchaseAsync (IncrementUserPurchase st' info.userId) info)
      else
        (.internal500, st')

/-! ### Inventory status (`redis.go` 260-272, `routes.go` 63-88) -/

/-- Outcome of `client.Get(inventoryKey).Int()`. -/
inductive InvFetch
  | redisNil
  | otherError
  | value (v : Int)
  deriving DecidableEq, Repr

/-- `GetInventoryStatus`: `redis.Nil` (missing key) yields `0` with no
error; any other error is propagated. -/
def GetInventoryStatus : InvFetch → Except String Int
  | .redisNil => .ok 0
  | .otherError => .error "inventory read failed"
  | .value v => .ok v

/-- The in-memory current-sale snapshot (`sale/manager.go`).  Times are
Unix seconds. -/
structure ActiveSale where
  saleId : String
  startTime : Nat
  endTime : Nat
  deriving DecidableEq, Repr

/-- Body of the 200 response of `saleStatusHandler`. -/
structure StatusBody where
  saleId : String
  remainingItems : Int
  itemsSold : Int
  saleEndsAt : Nat
  timeRemainingSeconds : Int
  deriving DecidableEq, Repr

/-- `saleStatusHandler` (`routes.go` lines 63-88): 404 with no body when
no sale is active; otherwise a 200 whose `remaining_items` is the fetched
inventory, `-1` on a fetch error, and whose `items_sold` is
`10000 - remaining`. -/
def saleStatusHandler (active : Option ActiveSale) (fetch : InvFetch)
    (now : Nat) : Nat × Option StatusBody :=
  match active with
  | none => (404, none)
  | some sale =>
    let remaining : Int :=
      match GetInventoryStatus fetch with
      | .ok v => v
      | .error _ => -1
    (200, some
      { saleId := sale.saleId
        remainingItems := remaining
        itemsSold := 10000 - remaining
        saleEndsAt := sale.endTime
        timeRemainingSeconds := (sale.endTime : Int) - (now : Int) })

/-! ### Sale rotation (`sale/manager.go` 89-137) -/

/-- Injected outcomes of the collaborator calls made by `startNewSale`. -/
structure RotateOutcome where
  createSaleOk : Bool
  createItemsOk : Bool
  showcaseQueryOk : Bool
  showcaseCacheOk : Bool
  initCacheOk : Bool
  deriving DecidableEq, Repr

/-- `startNewSale`: `CreateSale` and `CreateItems` failures abort before
anything else; a showcase failure (either the DB query or the cache
write) only logs a warning; an `InitializeSale` failure aborts; only on
success is the `current_sale` pointer swapped.  The returned triple is
(result, new pointer value, warnings logged). -/
def startNewSale (prev : Option ActiveSale) (now : Nat) (io : RotateOutcome) :
    Except String Unit × Option ActiveSale × List String :=
  if io.createSaleOk = false then
    (.error "failed to create sale", prev, [])
  else if io.createItemsOk = false then
    (.error "failed to create items", prev, [])
  else
    let warnings :=
      if io.showcaseQueryOk = false then
        ["could not get showcase IDs for cache warming"]
      else if io.showcaseCacheOk = false then
        ["failed to cache showcase info"]
      else []
    if io.initCacheOk = false then
      (.error "failed to initialize cache", prev, warnings)
    else
      (.ok (),
        some { saleId := "sale_" ++ toString now,
               startTime := now, endTime := now + 3600 },
        warnings)

/-! ### Schedules of requests against a single sale

Redis serialises the atomic commands of the hot path (the Lua script,
`SET`, `GETDEL`, `HINCRBY`), so a schedule of concurrent requests acts on
the store as a sequence of steps.  Each `Event` is one external request
(with its injected failure outcomes and its `time.Now()` value) or the
TTL expiry of a code key.  Between a reserve's Lua script and its code
`SET` only that fresh code key and the compensation `INCR` are involved,
commands no other request touches or that commute with them, so the pair
is folded into one step. -/

/-- The sale id of the current sale used throughout a schedule. -/
def theSale : String := "sale_demo"

/-- One step of a schedule. -/
inductive Event
  | checkout (userId itemId code : String) (now : Nat) (writeOk : Bool)
  | purchase (code : String) (now : Nat) (incrOk : Bool)
  | expire (code : String)
  deriving DecidableEq, Repr

/-- Observable outcome of one step. -/
inductive Output
  | checkoutOut (r : CheckoutResp)
  | purchaseOut (r : PurchaseResp)
  | expired
  deriving DecidableEq, Repr

/-- Store plus the count of purchase requests answered with the 200
success body. -/
structure SysState where
  store : Store
  commits : Nat
  deriving DecidableEq, Repr

/-- State after `InitializeSale(saleID, 10000)`, before any request. -/
def initSys : SysState :=
  { store := initSaleStore totalItems, commits := 0 }

/-- Execute one event. -/
def stepOut (s : SysState) : Event → SysState × Output
  | .checkout u i c t w =>
    let r := checkoutReq s.store theSale u i c t w
    ({ s with store := r.2 }, .checkoutOut r.1)
  | .purchase c t k =>
    let r := purchaseReq s.store c t k
    ({ store := r.2,
       commits := s.commits + (if r.1.isSuccess then 1 else 0) },
      .purchaseOut r.1)
  | .expire c =>
    ({ s with store := { s.store with codes := codeDel s.store.codes c } },
      .expired)

/-- State transition of one event. -/
def stepSys (s : SysState) (e : Event) : SysState := (stepOut s e).1

/-- Run a schedule. -/
def runSys (s : SysState) (es : List Event) : SysState := es.foldl stepSys s

/-- Outputs of a schedule, in order. -/
def runOuts : SysState → List Event → List Output
  | _, [] => []
  | s, e :: es => (stepOut s e).2 :: runOuts (stepSys s e) es

/-- Number of checkout events in a schedule that carry code `c`
(`generateCode` draws 128 random bits, so a code value recurs in at most
one reserve). -/
def countIssued (c : String) : List Event → Nat
  | [] => 0
  | .checkout _ _ c' _ _ :: es => (if c' = c then 1 else 0) + countIssued c es
  | _ :: es => countIssued c es

/-- Number of purchase requests for code `c` in a schedule that return
the 200 success body. -/
def countOkFor (c : String) : SysState → List Event → Nat
  | _, [] => 0
  | s, .purchase c' t k :: es =>
    (if c' = c ∧ (purchaseReq s.store c' t k).1.isSuccess = true then 1 else 0) +
      countOkFor c (stepSys s (.purchase c' t k)) es
  | s, e :: es => countOkFor c (stepSys s e) es

/-- Whether the code key `c` is live in the store. -/
def hasCode (st : Store) (c : String) : Bool :=
  (codeLookup st.codes c).isSome

/-- Value of the user's field in the `user_purchases` hash (0 when the
field is absent), i.e. the user's committed purchases. -/
def userCountD (st : Store) (u : String) : Nat :=
  (hget st.userPurchases u).getD 0

/-- Number of live reservation codes issued to user `u`. -/
def countUser : CodeTable → String → Nat
  | [], _ => 0
  | (_, i) :: t, u => (if i.userId = u then 1 else 0) + countUser t u

/-- Live codes of user `u` in the store. -/
def outstanding (st : Store) (u : String) : Nat :=
  countUser st.codes u

/-- Step of `runMax`: run the event and record the largest number of
codes user `u` has held at once. -/
def stepMax (u : String) (p : SysState × Nat) (e : Event) : SysState × Nat :=
  let s' := stepSys p.1 e
  (s', max p.2 (outstanding s'.store u))

/-- Run a schedule from the fresh sale, tracking the maximum number of
simultaneously outstanding codes of user `u`. -/
def runMax (u : String) (es : List Event) : SysState × Nat :=
  es.foldl (stepMax u) (initSys, 0)

/-! ### Lemmas about the code table and the user hash -/

theorem codeLookup_codeDel_self (l : CodeTable) (c : String) :
    codeLookup (codeDel l c) c = none := by
  induction l with
  | nil => rfl
  | cons p t ih =>
    obtain ⟨k, v⟩ := p
    by_cases h : k = c
    · simpa [codeDel, h] using ih
    · simp [codeDel, codeLookup, h, ih]

theorem codeLookup_codeDel_ne (l : CodeTable) {c c' : String} (h : c' ≠ c) :
    codeLookup (codeDel l c) c' = codeLookup l c' := by
  induction l with
  | nil => rfl
  | cons p t ih =>
    obtain ⟨k, v⟩ := p
    by_cases hk : k = c
    · subst hk
      simp [codeDel, codeLookup, Ne.symm h, ih]
    · by_cases hk' : k = c'
      · simp [codeDel, codeLookup, hk, hk', h]
      · simp [codeDel, codeLookup, hk, hk', ih]

theorem length_codeDel_le (l : CodeTable) (c : String) :
    (codeDel l c).length ≤ l.length := by
  induction l with
  | nil => simp [codeDel]
  | cons p t ih =>
    obtain ⟨k, v⟩ := p
    by_cases h : k = c
    · simp only [codeDel, h, if_true, List.length_cons]
      omega
    · simp only [codeDel, h, if_false, List.length_cons]
      omega

theorem length_codeDel_lt (l : CodeTable) (c : String) (info : CheckoutInfo)
    (h : codeLookup l c = some info) : (codeDel l c).length < l.length := by
  induction l with
  | nil => simp [codeLookup] at h
  | cons p t ih =>
    obtain ⟨k, v⟩ := p
    by_cases hk : k = c
    · simp only [codeDel, hk, if_true, List.length_cons]
      have := length_codeDel_le t c
      omega
    · simp only [codeLookup, hk, if_false] at h
      simp only [codeDel, hk, if_false, List.length_cons]
      exact Nat.succ_lt_succ (ih h)

theorem codeLookup_codeSet_self (l : CodeTable) (c : String) (i : CheckoutInfo) :
    codeLookup (codeSet l c i) c = some i := by
  simp [codeSet, codeLookup]

theorem codeLookup_codeSet_ne (l : CodeTable) {c c' : String} (i : CheckoutInfo)
    (h : c' ≠ c) : codeLookup (codeSet l c i) c' = codeLookup l c' := by
  simp [codeSet, codeLookup, Ne.symm h, codeLookup_codeDel_ne l h]

theorem length_codeSet_le (l : CodeTable) (c : String) (i : CheckoutInfo) :
    (codeSet l c i).length ≤ l.length + 1 := by
  simp only [codeSet, List.length_cons]
  have := length_codeDel_le l c
  omega

theorem countUser_codeDel_le (l : CodeTable) (c u : String) :
    countUser (codeDel l c) u ≤ countUser l u := by
  induction l with
  | nil => simp [codeDel]
  | cons p t ih =>
    obtain ⟨k, v⟩ := p
    by_cases h : k = c
    · simp only [codeDel, h, if_true, countUser]
      omega
    · simp only [codeDel, h, if_false, countUser]
      omega

theorem countUser_codeDel_lt (l : CodeTable) (c : String) (info : CheckoutInfo)
    (h : codeLookup l c = some info) :
    countUser (codeDel l c) info.userId < countUser l info.userId := by
  induction l with
  | nil => simp [codeLookup] at h
  | cons p t ih =>
    obtain ⟨k, v⟩ := p
    by_cases hk : k = c
    · simp only [codeLookup, hk, if_true, Option.some.injEq] at h
      subst h
      simp only [codeDel, hk, if_true, countUser, if_pos rfl]
      have := countUser_codeDel_le t c v.userId
      omega
    · simp only [codeLookup, hk, if_false] at h
      simp only [codeDel, hk, if_false, countUser]
      have := ih h
      omega

theorem countUser_codeSet_le (l : CodeTable) (c u : String) (i : CheckoutInfo) :
    countUser (codeSet l c i) u ≤
      countUser l u + (if i.userId = u then 1 else 0) := by
  simp only [codeSet, countUser]
  have := countUser_codeDel_le l c u
  omega

theorem hget_hincr_self (l : UserHash) (u : String) :
    hget (hincr l u) u = some ((hget l u).getD 0 + 1) := by
  induction l with
  | nil => simp [hincr, hget]
  | cons p t ih =>
    obtain ⟨k, v⟩ := p
    by_cases h : k = u
    · simp [hincr, hget, h]
    · simp [hincr, hget, h, ih]

theorem hget_hincr_ne (l : UserHash) {u w : String} (h : w ≠ u) :
    hget (hincr l u) w = hget l w := by
  induction l with
  | nil => simp [hincr, hget, Ne.symm h]
  | cons p t ih =>
    obtain ⟨k, v⟩ := p
    by_cases hk : k = u
    · subst hk
      simp [hincr, hget, Ne.symm h]
    · by_cases hk' : k = w
      · simp [hincr, hget, hk, hk', h]
      · simp [hincr, hget, hk, hk', ih]

/-! ### Effect characterisations of the two request handlers -/

/-- `userLimitHit = false` bounds the committed count by `m - 1`. -/
theorem userCountD_lt_of_not_hit {h : UserHash} {u : String} {m : Nat}
    (hm : 0 < m) (hl : userLimitHit h u m = false) : (hget h u).getD 0 < m := by
  unfold userLimitHit at hl
  match hv : hget h u with
  | none => simpa [hv] using hm
  | some c =>
    rw [hv] at hl
    simp only [decide_eq_false_iff_not, Nat.not_le] at hl
    simpa [hv] using hl

/-- A checkout either leaves the store unchanged, or (when the Lua script
passed both checks and the code write succeeded) decrements the inventory
by one and installs the fresh code record. -/
theorem checkoutReq_store_cases (st : Store) (sa u i c : String) (t : Nat)
    (w : Bool) :
    (checkoutReq st sa u i c t w).2 = st ∨
    (userLimitHit st.userPurchases u maxPerUser = false ∧ 1 ≤ st.inv ∧
      w = true ∧
      (checkoutReq st sa u i c t w).2 =
        { st with inv := st.inv - 1,
                  codes := codeSet st.codes c
                    (CheckoutInfo.mk u i sa (t + codeExpirySec)) }) := by
  by_cases hbad : u = "" ∨ i = ""
  · left
    simp [checkoutReq, hbad]
  · by_cases hl : userLimitHit st.userPurchases u maxPerUser
    · left
      simp [checkoutReq, ReserveItem, luaReserve, hbad, hl]
    · rw [Bool.not_eq_true] at hl
      by_cases hinv : st.inv - 1 < 0
      · left
        simp [checkoutReq, ReserveItem, luaReserve, hbad, hl, hinv,
          Int.sub_add_cancel]
      · cases w with
        | false =>
          left
          simp [checkoutReq, ReserveItem, luaReserve, hbad, hl, hinv,
            Int.sub_add_cancel]
        | true =>
          right
          refine ⟨hl, by omega, rfl, ?_⟩
          simp [checkoutReq, ReserveItem, luaReserve, hbad, hl, hinv]

/-- A checkout never touches the user hash or the commit count. -/
theorem checkoutReq_userPurchases (st : Store) (sa u i c : String) (t : Nat)
    (w : Bool) : (checkoutReq st sa u i c t w).2.userPurchases = st.userPurchases := by
  rcases checkoutReq_store_cases st sa u i c t w with h | ⟨_, _, _, h⟩ <;>
    rw [h]

/-- A purchase either leaves the store unchanged and fails, or consumes a
live code; the 200 success body appears exactly when the consumed record
was unexpired and the user-counter increment succeeded, and then the
record's user field is incremented. -/
theorem purchaseReq_cases (st : Store) (c : String) (t : Nat) (k : Bool) :
    ((purchaseReq st c t k).2 = st ∧
      (purchaseReq st c t k).1.isSuccess = false) ∨
    (∃ info, codeLookup st.codes c = some info ∧
      (((purchaseReq st c t k).2 = { st with codes := codeDel st.codes c } ∧
          (purchaseReq st c t k).1.isSuccess = false) ∨
        ((purchaseReq st c t k).2 =
            { st with codes := codeDel st.codes c,
                      userPurchases := hincr st.userPurchases info.userId } ∧
          (purchaseReq st c t k).1 =
            .ok200 info.userId info.itemId info.saleId))) := by
  by_cases hc : c = ""
  · left
    constructor
    · simp [purchaseReq, hc]
    · simp [purchaseReq, hc, PurchaseResp.isSuccess]
  · cases hv : codeLookup st.codes c with
    | none =>
      left
      constructor
      · simp [purchaseReq, VerifyAndPurchase, hc, hv]
      · simp [purchaseReq, VerifyAndPurchase, hc, hv, PurchaseResp.isSuccess]
    | some info =>
      right
      refine ⟨info, rfl, ?_⟩
      by_cases hexp : info.expiresAt < t
      · left
        constructor
        · simp [purchaseReq, VerifyAndPurchase, hc, hv, hexp]
        · simp [purchaseReq, VerifyAndPurchase, hc, hv, hexp,
            PurchaseResp.isSuccess]
      · cases k with
        | false =>
          left
          constructor
          · simp [purchaseReq, VerifyAndPurchase, hc, hv, hexp]
          · simp [purchaseReq, VerifyAndPurchase, hc, hv, hexp,
              PurchaseResp.isSuccess]
        | true =>
          right
          constructor
          · simp [purchaseReq, VerifyAndPurchase, IncrementUserPurchase,
              hc, hv, hexp]
          · simp [purchaseReq, VerifyAndPurchase, hc, hv, hexp]

/-- A purchase of a code that is not live fails with
`invalid or expired code`. -/
theorem purchaseReq_notFound (st : Store) (c : String) (t : Nat) (k : Bool)
    (hc : c ≠ "") (h : codeLookup st.codes c = none) :
    purchaseReq st c t k = (.err400 "invalid or expired code", st) := by
  unfold purchaseReq VerifyAndPurchase
  simp [hc, h, purchaseErrMsg]

/-! ### No oversell (C1) -/

/-- Inventory is never negative, and inventory + live codes + successful
commits never exceeds the initial stock. -/
def InvStock (s : SysState) : Prop :=
  0 ≤ s.store.inv ∧
  s.store.inv + (s.store.codes.length : Int) + (s.commits : Int) ≤ totalItems

theorem stepSys_invStock {s : SysState} (e : Event) (h : InvStock s) :
    InvStock (stepSys s e) := by
  obtain ⟨hpos, hsum⟩ := h
  cases e with
  | checkout u i c t w =>
    have hstore : stepSys s (.checkout u i c t w) =
        { s with store := (checkoutReq s.store theSale u i c t w).2 } := rfl
    rcases checkoutReq_store_cases s.store theSale u i c t w with hc | ⟨_, hinv, _, hc⟩
    · rw [hstore, hc]
      exact ⟨hpos, hsum⟩
    · rw [hstore, hc]
      constructor
      · simp only
        omega
      · have hlen := length_codeSet_le s.store.codes c
          (CheckoutInfo.mk u i theSale (t + codeExpirySec))
        simp only
        omega
  | purchase c t k =>
    have hstore : (stepSys s (.purchase c t k)).store =
        (purchaseReq s.store c t k).2 := rfl
    have hcommits : (stepSys s (.purchase c t k)).commits =
        s.commits + (if (purchaseReq s.store c t k).1.isSuccess then 1 else 0) := rfl
    rcases purchaseReq_cases s.store c t k with ⟨hst, hok⟩ | ⟨info, hv, hcase⟩
    · constructor
      · rw [hstore, hst]
        exact hpos
      · rw [hstore, hst, hcommits, hok]
        simpa using hsum
    · rcases hcase with ⟨hst, hok⟩ | ⟨hst, hok⟩
      · have hlen := length_codeDel_le s.store.codes c
        constructor
        · rw [hstore, hst]
          exact hpos
        · rw [hstore, hst, hcommits, hok]
          simp only [if_false, Bool.false_eq_true]
          push_cast
          omega
      · have hlen := length_codeDel_lt s.store.codes c info hv
        constructor
        · rw [hstore, hst]
          exact hpos
        · rw [hstore, hst, hcommits, hok]
          simp only [PurchaseResp.isSuccess, if_true]
          push_cast
          omega
  | expire c =>
    have hlen := length_codeDel_le s.store.codes c
    constructor
    · exact hpos
    · show s.store.inv + ((codeDel s.store.codes c).length : Int) +
        (s.commits : Int) ≤ totalItems
      omega

theorem runSys_invStock (es : List Event) {s : SysState} (h : InvStock s) :
    InvStock (runSys s es) := by
  induction es generalizing s with
  | nil => exact h
  | cons e es ih => exact ih (stepSys_invStock e h)

/-- Claim C1: for every schedule of interleaved reserve (checkout) and
commit (purchase) operations on a single sale initialised with
`total_items = 10000`, the number of commit operations that return
success is at most 10000. -/
theorem no_oversell (events : List Event) :
    (runSys initSys events).commits ≤ 10000 := by
  have h0 : InvStock initSys := by
    constructor
    · show (0 : Int) ≤ 10000
      norm_num
    · show (10000 : Int) + ((0 : Nat) : Int) + ((0 : Nat) : Int) ≤ totalItems
      norm_num [totalItems]
  obtain ⟨hpos, hsum⟩ := runSys_invStock events h0
  have hlen : (0 : Int) ≤ ((runSys initSys events).store.codes.length : Int) := by
    positivity
  rw [show totalItems = (10000 : Int) from rfl] at hsum
  omega

/-! ### Per-user cap (C2) -/

theorem countUser_lt_of_lookup (l : CodeTable) (c : String) (info : CheckoutInfo)
    (h : codeLookup l c = some info) :
    countUser (codeDel l c) info.userId + 1 ≤ countUser l info.userId :=
  countUser_codeDel_lt l c info h

/-- Bound on committed + outstanding for one user, as a function of the
largest number of codes the user has held at once. -/
def capBound (m : Nat) : Nat :=
  if m = 0 then 0 else maxPerUser - 1 + m

theorem capBound_mono {m M : Nat} (h : m ≤ M) : capBound m ≤ capBound M := by
  unfold capBound
  by_cases h0 : m = 0 <;> by_cases h1 : M = 0 <;> simp [h0, h1] <;> omega

theorem capBound_frame {cnt out o M m : Nat} (h : cnt + out ≤ capBound m)
    (ho : o ≤ out) (hm : m ≤ M) : cnt + o ≤ capBound M :=
  le_trans (by omega) (le_trans h (capBound_mono hm))

theorem capBound_commit {cnt out o M m : Nat} (h : cnt + out ≤ capBound m)
    (ho : o + 1 ≤ out) (hm : m ≤ M) : cnt + 1 + o ≤ capBound M :=
  le_trans (by omega) (le_trans h (capBound_mono hm))

theorem capBound_step {cnt out o M m : Nat} (h : cnt + out ≤ capBound m)
    (hcnt : cnt < maxPerUser) (ho : o ≤ M) (hm : m ≤ M) :
    cnt + o ≤ capBound M := by
  unfold capBound maxPerUser at *
  by_cases h0 : m = 0 <;> by_cases h1 : M = 0 <;> simp [h0, h1] at h ⊢ <;> omega

/-- The per-user invariant: committed purchases plus live codes of user
`u` stay below `capBound` of the running maximum of live codes. -/
def InvCap (u : String) (p : SysState × Nat) : Prop :=
  userCountD p.1.store u + outstanding p.1.store u ≤ capBound p.2

theorem stepMax_invCap {u : String} {p : SysState × Nat} (e : Event)
    (h : InvCap u p) : InvCap u (stepMax u p e) := by
  obtain ⟨s, m⟩ := p
  have h' : userCountD s.store u + outstanding s.store u ≤ capBound m := h
  show userCountD (stepSys s e).store u + outstanding (stepSys s e).store u ≤
    capBound (max m (outstanding (stepSys s e).store u))
  have hm : m ≤ max m (outstanding (stepSys s e).store u) := Nat.le_max_left _ _
  have hout : outstanding (stepSys s e).store u ≤
      max m (outstanding (stepSys s e).store u) := Nat.le_max_right _ _
  simp only [userCountD, outstanding] at h'
  cases e with
  | checkout u0 i c t w =>
    have hstore : (stepSys s (.checkout u0 i c t w)).store =
        (checkoutReq s.store theSale u0 i c t w).2 := rfl
    rw [hstore] at hout hm ⊢
    rcases checkoutReq_store_cases s.store theSale u0 i c t w with
      hc | ⟨hl, _, _, hc⟩
    · rw [hc] at hout hm ⊢
      exact capBound_frame h le_rfl hm
    · rw [hc] at hout hm ⊢
      have hB := countUser_codeSet_le s.store.codes c u
        (CheckoutInfo.mk u0 i theSale (t + codeExpirySec))
      simp only [userCountD, outstanding] at hout hm ⊢
      by_cases hu : u0 = u
      · subst hu
        have hlt : (hget s.store.userPurchases u0).getD 0 < maxPerUser :=
          userCountD_lt_of_not_hit (by norm_num [maxPerUser]) hl
        exact capBound_step h' hlt hout hm
      · have hB' : countUser (codeSet s.store.codes c
            (CheckoutInfo.mk u0 i theSale (t + codeExpirySec))) u ≤
            countUser s.store.codes u := by
          simpa [hu] using hB
        exact capBound_frame h' hB' hm
  | purchase c t k =>
    have hstore : (stepSys s (.purchase c t k)).store =
        (purchaseReq s.store c t k).2 := rfl
    rw [hstore] at hout hm ⊢
    rcases purchaseReq_cases s.store c t k with ⟨hst, _⟩ | ⟨info, hv, hcase⟩
    · rw [hst] at hout hm ⊢
      exact capBound_frame h le_rfl hm
    · rcases hcase with ⟨hst, _⟩ | ⟨hst, _⟩
      · rw [hst] at hout hm ⊢
        simp only [userCountD, outstanding] at hout hm ⊢
        exact capBound_frame h' (countUser_codeDel_le s.store.codes c u) hm
      · rw [hst] at hout hm ⊢
        simp only [userCountD, outstanding] at hout hm ⊢
        by_cases hu : info.userId = u
        · subst hu
          rw [hget_hincr_self]
          simp only [Option.getD_some]
          have hlt := countUser_lt_of_lookup s.store.codes c info hv
          exact capBound_commit h' hlt hm
        · rw [hget_hincr_ne _ (fun hh => hu hh.symm)]
          exact capBound_frame h' (countUser_codeDel_le s.store.codes c u) hm
  | expire c =>
    have hstore : (stepSys s (.expire c)).store =
        { s.store with codes := codeDel s.store.codes c } := rfl
    rw [hstore] at hout hm ⊢
    simp only [userCountD, outstanding] at hout hm ⊢
    exact capBound_frame h' (countUser_codeDel_le s.store.codes c u) hm

theorem runMax_invCap (u : String) (es : List Event) {p : SysState × Nat}
    (h : InvCap u p) : InvCap u (es.foldl (stepMax u) p) := by
  induction es generalizing p with
  | nil => exact h
  | cons e es ih => exact ih (stepMax_invCap e h)

/-- Eleven distinct reservation codes. -/
def cxCodes : List String :=
  ["c01", "c02", "c03", "c04", "c05", "c06", "c07", "c08", "c09", "c10", "c11"]

/-- Schedule: alice checks out eleven codes (no purchase in between),
then redeems all eleven. -/
def overCapTrace : List Event :=
  cxCodes.map (fun c => .checkout "alice" "sale_demo_item_000001" c 0 true) ++
    cxCodes.map (fun c => .purchase c 10 true)

/-- Claim C2 as stated is false: the reserve-time check reads only the
committed count (incremented at commit, not at reserve), so a user who
checks out eleven codes before redeeming any ends with a UserCounter of
11 > L = 10. -/
theorem per_user_cap_counterexample :
    userCountD (runSys initSys overCapTrace).store "alice" = 11 ∧
    ¬(userCountD (runSys initSys overCapTrace).store "alice" ≤ maxPerUser) := by
  constructor
  · decide
  · decide

/-- Claim C2, amended: the UserCounter of user `u` (incremented only on
commit success) stays at most `L = 10` on every schedule in which `u`
never holds more than one live (unredeemed, unexpired) reservation code
at a time; without that restriction only
`committed ≤ L - 1 + max simultaneous codes` holds, and the plain bound
fails (see the counterexample). -/
theorem per_user_cap_amended (events : List Event) (u : String)
    (hseq : (runMax u events).2 ≤ 1) :
    userCountD (runMax u events).1.store u ≤ maxPerUser := by
  have h0 : InvCap u (initSys, 0) := by
    show userCountD (initSaleStore totalItems) u +
      outstanding (initSaleStore totalItems) u ≤ capBound 0
    simp [userCountD, outstanding, initSaleStore, hget, countUser, capBound]
  have hend := runMax_invCap u events h0
  have hb : userCountD (runMax u events).1.store u +
      outstanding (runMax u events).1.store u ≤ capBound (runMax u events).2 :=
    hend
  have hcap : capBound (runMax u events).2 ≤ maxPerUser := by
    unfold capBound maxPerUser
    by_cases hz : (runMax u events).2 = 0
    · simp [hz]
    · simp [hz]
      omega
  omega

/-- A one-code-at-a-time schedule reaching the hypothesis of
`per_user_cap_amended`. -/
def singleCodeTrace : List Event :=
  [.checkout "alice" "sale_demo_item_000001" "c01" 0 true,
   .purchase "c01" 10 true,
   .checkout "alice" "sale_demo_item_000002" "c02" 20 true,
   .purchase "c02" 30 true]

theorem per_user_cap_amended_witness :
    (runMax "alice" singleCodeTrace).2 ≤ 1 ∧
    userCountD (runMax "alice" singleCodeTrace).1.store "alice" ≤ maxPerUser :=
  ⟨by decide, per_user_cap_amended singleCodeTrace "alice" (by decide)⟩

/-! ### Code single consumption (C4) -/

theorem countOk_empty_code (es : List Event) (s : SysState) :
    countOkFor "" s es = 0 := by
  induction es generalizing s with
  | nil => rfl
  | cons e es ih =>
    cases e with
    | checkout u i c t w => simpa [countOkFor] using ih _
    | purchase c t k =>
      by_cases hc : c = ""
      · subst hc
        simp [countOkFor, purchaseReq, PurchaseResp.isSuccess, ih]
      · simp [countOkFor, hc, ih]
    | expire c => simpa [countOkFor] using ih _

/-- Along any schedule, the successes for code `c` plus its liveness at
the end are bounded by the number of times `c` was issued plus its
liveness at the start: a success consumes the key, and only a checkout
carrying `c` can (re)create it. -/
theorem countOk_bound (c : String) (es : List Event) (s : SysState) :
    countOkFor c s es + (if hasCode (runSys s es).store c then 1 else 0) ≤
      countIssued c es + (if hasCode s.store c then 1 else 0) := by
  induction es generalizing s with
  | nil => simp [countOkFor, countIssued, runSys]
  | cons e es ih =>
    have hrun : runSys s (e :: es) = runSys (stepSys s e) es := rfl
    rw [hrun]
    cases e with
    | checkout u0 i c0 t w =>
      have hco : countOkFor c s (.checkout u0 i c0 t w :: es) =
          countOkFor c (stepSys s (.checkout u0 i c0 t w)) es := rfl
      have hci : countIssued c (.checkout u0 i c0 t w :: es) =
          (if c0 = c then 1 else 0) + countIssued c es := rfl
      rw [hco, hci]
      have hIH := ih (stepSys s (.checkout u0 i c0 t w))
      have hstore : (stepSys s (.checkout u0 i c0 t w)).store =
          (checkoutReq s.store theSale u0 i c0 t w).2 := rfl
      have hstep : (if hasCode (stepSys s (.checkout u0 i c0 t w)).store c
          then 1 else 0) ≤
          (if c0 = c then 1 else 0) + (if hasCode s.store c then 1 else 0) := by
        rcases checkoutReq_store_cases s.store theSale u0 i c0 t w with
          hc1 | ⟨_, _, _, hc1⟩
        · rw [hstore, hc1]
          split <;> simp
        · by_cases he : c0 = c
          · simp only [he, if_pos rfl]
            split <;> simp
          · have hceq : codeLookup (codeSet s.store.codes c0
                (CheckoutInfo.mk u0 i theSale (t + codeExpirySec))) c =
                codeLookup s.store.codes c :=
              codeLookup_codeSet_ne _ _ (fun hh => he hh.symm)
            rw [hstore, hc1]
            simp [hasCode, hceq, he]
      linarith [hIH, hstep]
    | purchase c0 t k =>
      have hco : countOkFor c s (.purchase c0 t k :: es) =
          (if c0 = c ∧ (purchaseReq s.store c0 t k).1.isSuccess = true
            then 1 else 0) +
          countOkFor c (stepSys s (.purchase c0 t k)) es := rfl
      have hci : countIssued c (.purchase c0 t k :: es) = countIssued c es := rfl
      rw [hco, hci]
      have hIH := ih (stepSys s (.purchase c0 t k))
      have hstore : (stepSys s (.purchase c0 t k)).store =
          (purchaseReq s.store c0 t k).2 := rfl
      have hstep : (if c0 = c ∧ (purchaseReq s.store c0 t k).1.isSuccess = true
          then 1 else 0) +
          (if hasCode (stepSys s (.purchase c0 t k)).store c then 1 else 0) ≤
          (if hasCode s.store c then 1 else 0) := by
        rcases purchaseReq_cases s.store c0 t k with ⟨hst, hok⟩ |
          ⟨info, hv, ⟨hst, hok⟩ | ⟨hst, hok⟩⟩
        · rw [hstore, hst]
          simp [hok]
        · have h1 : (if c0 = c ∧ (purchaseReq s.store c0 t k).1.isSuccess = true
              then 1 else 0) = 0 := by
            simp [hok]
          rw [hstore, hst, h1]
          by_cases he : c0 = c
          · subst he
            simp [hasCode, codeLookup_codeDel_self, hv]
          · have hceq : codeLookup (codeDel s.store.codes c0) c =
                codeLookup s.store.codes c :=
              codeLookup_codeDel_ne _ (fun hh => he hh.symm)
            simp [hasCode, hceq]
        · rw [hstore, hst]
          by_cases he : c0 = c
          · subst he
            simp [hasCode, codeLookup_codeDel_self, hv, hok,
              PurchaseResp.isSuccess]
          · have hceq : codeLookup (codeDel s.store.codes c0) c =
                codeLookup s.store.codes c :=
              codeLookup_codeDel_ne _ (fun hh => he hh.symm)
            simp [hasCode, hceq, he]
      linarith [hIH, hstep]
    | expire c0 =>
      have hco : countOkFor c s (.expire c0 :: es) =
          countOkFor c (stepSys s (.expire c0)) es := rfl
      have hci : countIssued c (.expire c0 :: es) = countIssued c es := rfl
      rw [hco, hci]
      have hIH := ih (stepSys s (.expire c0))
      have hstep : (if hasCode (stepSys s (.expire c0)).store c then 1 else 0) ≤
          (if hasCode s.store c then 1 else 0) := by
        by_cases he : c0 = c
        · subst he
          have hfalse : hasCode (stepSys s (.expire c0)).store c0 = false := by
            simp [stepSys, stepOut, hasCode, codeLookup_codeDel_self]
          simp [hfalse]
        · have hceq : codeLookup (codeDel s.store.codes c0) c =
              codeLookup s.store.codes c :=
            codeLookup_codeDel_ne _ (fun hh => he hh.symm)
          have heq : hasCode (stepSys s (.expire c0)).store c =
              hasCode s.store c := by
            simp [stepSys, stepOut, hasCode, hceq]
          rw [heq]
      linarith [hIH, hstep]

/-- Claim C4: provided each code value is issued by at most one reserve
(the 128-bit random codes of `generateCode`), at most one purchase of
code `c` returns success, and once one has succeeded every later
purchase of `c` answers 400 `invalid or expired code`. -/
theorem code_single_consumption :
    (∀ (events : List Event) (c : String),
        countIssued c events ≤ 1 → countOkFor c initSys events ≤ 1) ∧
    (∀ (events : List Event) (c : String) (t : Nat) (k : Bool),
        countIssued c events ≤ 1 → 1 ≤ countOkFor c initSys events →
        (stepOut (runSys initSys events) (.purchase c t k)).2 =
          .purchaseOut (.err400 "invalid or expired code")) := by
  constructor
  · intro es c hfresh
    have hb := countOk_bound c es initSys
    have h0 : hasCode initSys.store c = false := rfl
    rw [h0] at hb
    simp only [Bool.false_eq_true, if_false] at hb
    omega
  · intro es c t k hfresh hok
    have hb := countOk_bound c es initSys
    have h0 : hasCode initSys.store c = false := rfl
    rw [h0] at hb
    simp only [Bool.false_eq_true, if_false] at hb
    have hc0 : c ≠ "" := by
      intro hc
      subst hc
      rw [countOk_empty_code] at hok
      omega
    have hfin : hasCode (runSys initSys es).store c = false := by
      by_cases hfin : hasCode (runSys initSys es).store c
      · rw [hfin] at hb
        simp at hb
        omega
      · simpa using hfin
    have hlook : codeLookup (runSys initSys es).store.codes c = none := by
      unfold hasCode at hfin
      cases hv : codeLookup (runSys initSys es).store.codes c with
      | none => rfl
      | some info =>
        rw [hv] at hfin
        simp at hfin
    have hres : (stepOut (runSys initSys es) (.purchase c t k)).2 =
        .purchaseOut (purchaseReq (runSys initSys es).store c t k).1 := rfl
    rw [hres, purchaseReq_notFound _ _ _ _ hc0 hlook]

/-- A schedule issuing `codeA` once and redeeming it once. -/
def c4Trace : List Event :=
  [.checkout "bob" "sale_demo_item_000002" "codeA" 0 true,
   .purchase "codeA" 1 true]

theorem code_single_consumption_witness :
    countOkFor "codeA" initSys c4Trace ≤ 1 ∧
    (stepOut (runSys initSys c4Trace) (.purchase "codeA" 2 true)).2 =
      .purchaseOut (.err400 "invalid or expired code") :=
  ⟨code_single_consumption.1 c4Trace "codeA" (by decide),
   code_single_consumption.2 c4Trace "codeA" 2 true (by decide) (by decide)⟩

/-! ### The reservation script (C3) and compensation (C5) -/

/-- Claim C3: the reservation Lua script as one atomic step: (i) when the
stored user counter exists and is ≥ L = 10 it returns user_limit with the
store untouched; (ii)/(iii) otherwise it decrements the inventory and,
when the post-decrement value is negative, increments it back and returns
sold_out with the store unchanged; (iv) otherwise it returns ok with
exactly the inventory decremented. -/
theorem reserve_script_steps (st : Store) (u : String) :
    (userLimitHit st.userPurchases u 10 = true →
      luaReserve st u 10 = (.userLimitExceeded, st)) ∧
    (userLimitHit st.userPurchases u 10 = false → st.inv - 1 < 0 →
      luaReserve st u 10 = (.soldOut, st)) ∧
    (userLimitHit st.userPurchases u 10 = false → 0 ≤ st.inv - 1 →
      luaReserve st u 10 = (.success, { st with inv := st.inv - 1 })) := by
  refine ⟨fun h => ?_, fun h hi => ?_, fun h hi => ?_⟩
  · simp [luaReserve, h]
  · simp [luaReserve, h, hi, Int.sub_add_cancel]
  · simp [luaReserve, h, show ¬(st.inv - 1 < 0) from by omega]

theorem reserve_script_steps_witness :
    luaReserve (Store.mk 5 [] [("u", 10)] []) "u" 10 =
      (.userLimitExceeded, Store.mk 5 [] [("u", 10)] []) ∧
    luaReserve (Store.mk 0 [] [] []) "v" 10 =
      (.soldOut, Store.mk 0 [] [] []) ∧
    luaReserve (Store.mk 5 [] [] []) "v" 10 =
      (.success, Store.mk (5 - 1) [] [] []) :=
  ⟨(reserve_script_steps (Store.mk 5 [] [("u", 10)] []) "u").1 (by decide),
   (reserve_script_steps (Store.mk 0 [] [] []) "v").2.1 (by decide) (by decide),
   (reserve_script_steps (Store.mk 5 [] [] []) "v").2.2 (by decide) (by decide)⟩

/-- Claim C5: when the script returned ok but the code write fails,
`ReserveItem` synchronously increments the inventory back — the returned
store equals the pre-call store, so no unit is lost — and returns the
error. -/
theorem compensation_on_code_write_failure (st : Store) (sa u i c : String)
    (t : Nat) (h1 : userLimitHit st.userPurchases u maxPerUser = false)
    (h2 : 1 ≤ st.inv) :
    ReserveItem st sa u i c t false = (.errCodeWrite, st) := by
  have hni : ¬(st.inv - 1 < 0) := by omega
  simp [ReserveItem, luaReserve, h1, hni, Int.sub_add_cancel]

theorem compensation_on_code_write_failure_witness :
    ReserveItem (Store.mk 7 [] [] []) "s" "u" "i" "c" 0 false =
      (.errCodeWrite, Store.mk 7 [] [] []) :=
  compensation_on_code_write_failure (Store.mk 7 [] [] []) "s" "u" "i" "c" 0
    (by decide) (by decide)

/-! ### Consecutive checkouts by one user (C6) -/

/-- Eleven consecutive checkout requests by alice, with no purchase in
between. -/
def elevenCheckouts : List Event :=
  cxCodes.map (fun c => .checkout "alice" "sale_demo_item_000001" c 0 true)

/-- Claim C6 as stated is false: the user counter is incremented only on
purchase, so with no purchases in between all eleven consecutive
checkouts succeed (no 403), and the inventory drops by 11, not 10. -/
theorem eleventh_checkout_counterexample :
    runOuts initSys elevenCheckouts =
      cxCodes.map (fun c => Output.checkoutOut (.ok200 c)) ∧
    (runSys initSys elevenCheckouts).store.inv = 10000 - 11 := by
  refine ⟨by decide, by decide⟩

/-- A checkout by alice immediately redeemed. -/
def roundEvents (c : String) : List Event :=
  [.checkout "alice" "sale_demo_item_000003" c 0 true, .purchase c 0 true]

/-- Ten redeemed checkout/purchase rounds by alice, then an eleventh
checkout. -/
def tenRoundsTrace : List Event :=
  ((cxCodes.take 10).map roundEvents).flatten ++
    [.checkout "alice" "sale_demo_item_000003" "c11" 0 true]

/-- Claim C6, amended: when each of alice's checkouts is redeemed before
the next one, the first ten checkout/purchase rounds succeed, the
eleventh checkout fails with 403 user-limit-exceeded, and the inventory
decreases by exactly 10, not 11. -/
theorem user_limit_on_eleventh_round :
    runOuts initSys tenRoundsTrace =
      ((cxCodes.take 10).map (fun c =>
        [Output.checkoutOut (.ok200 c),
         Output.purchaseOut (.ok200 "alice" "sale_demo_item_000003" theSale)])).flatten ++
      [Output.checkoutOut .forbidden403] ∧
    (runSys initSys tenRoundsTrace).store.inv = 10000 - 10 ∧
    (runSys initSys tenRoundsTrace).commits = 10 := by
  refine ⟨by decide, by decide, by decide⟩

/-! ### Rotation failure policy (C7) -/

/-- Claim C7 as stated is false: a failure in step 3 (compute and cache
the showcase subset) does not abort `startNewSale`; the warning is
logged, the rotation completes and the current-sale pointer is replaced
by the new sale. -/
theorem rotation_showcase_failure_counterexample :
    startNewSale (some (ActiveSale.mk "sale_100" 100 3700)) 200
        (RotateOutcome.mk true true false true true) =
      (.ok (), some (ActiveSale.mk "sale_200" 200 3800),
        ["could not get showcase IDs for cache warming"]) ∧
    (startNewSale (some (ActiveSale.mk "sale_100" 100 3700)) 200
        (RotateOutcome.mk true true false true true)).2.1 ≠
      some (ActiveSale.mk "sale_100" 100 3700) := by
  refine ⟨rfl, by decide⟩

/-- Claim C7, amended: a failure of `CreateSale` (step 1/2), of
`CreateItems` (step 2) or of `InitializeSale` (step 4) aborts the
rotation for this tick and leaves the current-sale pointer unchanged;
a showcase-step failure (step 3) only logs a warning and does not
abort. -/
theorem rotation_failure_aborts (prev : Option ActiveSale) (now : Nat)
    (io : RotateOutcome)
    (h : io.createSaleOk = false ∨ io.createItemsOk = false ∨
      io.initCacheOk = false) :
    (∃ msg, (startNewSale prev now io).1 = .error msg) ∧
    (startNewSale prev now io).2.1 = prev := by
  cases hA : io.createSaleOk <;> cases hB : io.createItemsOk <;>
    cases hE : io.initCacheOk <;>
    simp [startNewSale, hA, hB, hE] at h ⊢

theorem rotation_failure_aborts_witness :
    (∃ msg, (startNewSale none 5 (RotateOutcome.mk true false true true true)).1 =
      .error msg) ∧
    (startNewSale none 5 (RotateOutcome.mk true false true true true)).2.1 = none :=
  rotation_failure_aborts none 5 (RotateOutcome.mk true false true true true)
    (by decide)

/-! ### Sequence-number parsing (C8) -/

/-- Claim C8 as stated is false: when `"_item_"` occurs more than once in
the item id, the split yields three or more parts and the goroutine skips
the bit set, while the integer after the last delimiter parses fine. -/
theorem item_seq_parse_counterexample :
    soldSeqOfItemId "a_item_1_item_2" = none ∧
    soldSeqSpec "a_item_1_item_2" = some 2 ∧
    soldSeqOfItemId "a_item_1_item_2" ≠ soldSeqSpec "a_item_1_item_2" := by
  refine ⟨by decide, by decide, by decide⟩

/-- Claim C8, amended: the bit is set only when splitting the record's
item id on `"_item_"` yields exactly two parts and the second parses as
an integer — in that case the sequence number is the integer after the
last (only) delimiter; in every other case the bit set is skipped; and
the purchase commit's response never depends on the bit-set outcome. -/
theorem item_seq_parse_amended :
    (∀ itemId : String, (goSplitItem itemId).length = 2 →
      soldSeqOfItemId itemId = soldSeqSpec itemId) ∧
    (∀ (st : Store) (code : String) (now : Nat) (k : Bool),
      (purchaseFlow st code now k).1 = (purchaseReq st code now k).1) ∧
    (∀ (st : Store) (info : CheckoutInfo), soldSeqOfItemId info.itemId = none →
      purchaseAsync st info = st) := by
  refine ⟨?_, ?_, ?_⟩
  · intro itemId h
    unfold soldSeqOfItemId soldSeqSpec
    match hp : goSplitItem itemId with
    | [] => rw [hp] at h; simp at h
    | [a] => rw [hp] at h; simp at h
    | [a, b] => simp
    | a :: b :: c :: ds => rw [hp] at h; simp at h
  · intro st code now k
    unfold purchaseFlow purchaseReq
    by_cases hc : code = ""
    · simp [hc]
    · simp only [hc, if_false]
      rcases hv : VerifyAndPurchase st code now with ⟨r, st'⟩
      cases r with
      | error e => simp [hv]
      | ok info => cases k <;> simp [hv]
  · intro st info h
    unfold purchaseAsync
    rw [h]

theorem item_seq_parse_amended_witness :
    soldSeqOfItemId "sale_demo_item_000042" =
      soldSeqSpec "sale_demo_item_000042" ∧
    (purchaseFlow (initSaleStore 5) "zz" 0 true).1 =
      (purchaseReq (initSaleStore 5) "zz" 0 true).1 ∧
    purchaseAsync (initSaleStore 5) (CheckoutInfo.mk "u" "noseq" "s" 0) =
      initSaleStore 5 :=
  ⟨item_seq_parse_amended.1 "sale_demo_item_000042" (by decide),
   item_seq_parse_amended.2.1 (initSaleStore 5) "zz" 0 true,
   item_seq_parse_amended.2.2 (initSaleStore 5)
     (CheckoutInfo.mk "u" "noseq" "s" 0) (by decide)⟩

/-! ### Expired-code consumption (C9) -/

/-- Claim C9: when the record is present but its `expires_at` is past,
the `GETDEL` has already removed it before the expiry check; the call
errs with `code expired`, neither the inventory nor the user hash
changes (no refund), and a retry of the same code fails as not-found —
the reserved unit is permanently lost. -/
theorem expired_code_lost (st : Store) (c : String) (info : CheckoutInfo)
    (now now2 : Nat) (hfound : codeLookup st.codes c = some info)
    (hexp : info.expiresAt < now) :
    VerifyAndPurchase st c now =
      (.error .codeExpired, { st with codes := codeDel st.codes c }) ∧
    (VerifyAndPurchase st c now).2.inv = st.inv ∧
    (VerifyAndPurchase st c now).2.userPurchases = st.userPurchases ∧
    (VerifyAndPurchase (VerifyAndPurchase st c now).2 c now2).1 =
      .error .invalidOrExpiredCode := by
  have h1 : VerifyAndPurchase st c now =
      (.error .codeExpired, { st with codes := codeDel st.codes c }) := by
    simp [VerifyAndPurchase, hfound, hexp]
  refine ⟨h1, ?_, ?_, ?_⟩
  · rw [h1]
  · rw [h1]
  · rw [h1]
    simp [VerifyAndPurchase, codeLookup_codeDel_self]

/-- A store holding one code that expired at time 100. -/
def expiredStore : Store :=
  Store.mk 9999
    [("cX", CheckoutInfo.mk "alice" "sale_demo_item_000001" "sale_demo" 100)]
    [] []

theorem expired_code_lost_witness :
    VerifyAndPurchase expiredStore "cX" 401 =
      (.error .codeExpired,
        { expiredStore with codes := codeDel expiredStore.codes "cX" }) ∧
    (VerifyAndPurchase expiredStore "cX" 401).2.inv = expiredStore.inv ∧
    (VerifyAndPurchase expiredStore "cX" 401).2.userPurchases =
      expiredStore.userPurchases ∧
    (VerifyAndPurchase (VerifyAndPurchase expiredStore "cX" 401).2 "cX" 402).1 =
      .error .invalidOrExpiredCode :=
  expired_code_lost expiredStore "cX"
    (CheckoutInfo.mk "alice" "sale_demo_item_000001" "sale_demo" 100) 401 402
    (by decide) (by decide)

/-! ### Inventory status fallbacks (C10) -/

/-- Claim C10: a missing inventory key makes `GetInventoryStatus` return
0 with no error, so the status endpoint answers 200 with
`remaining_items = 0` and `items_sold = 10000` rather than an error; on
any other inventory read error the handler reports `remaining_items = -1`
and `items_sold = 10001`, still as a 200. -/
theorem inventory_status_fallbacks (sale : ActiveSale) (now : Nat) :
    GetInventoryStatus .redisNil = .ok 0 ∧
    saleStatusHandler (some sale) .redisNil now =
      (200, some (StatusBody.mk sale.saleId 0 10000 sale.endTime
        ((sale.endTime : Int) - (now : Int)))) ∧
    saleStatusHandler (some sale) .otherError now =
      (200, some (StatusBody.mk sale.saleId (-1) 10001 sale.endTime
        ((sale.endTime : Int) - (now : Int)))) := by
  refine ⟨rfl, ?_, ?_⟩
  · simp [saleStatusHandler, GetInventoryStatus]
  · simp [saleStatusHandler, GetInventoryStatus]

end FlashSale
